import Mathlib

set_option maxRecDepth 40000

/-!
Verification of the pet-grooming static-site generator.

The repository contains two pipeline variants:
* `Root`    — models `src/generate_pages.py` (name-derived slugs, string-typed
  rating/review fields, no URL-scheme check on the website field);
* `Scripts` — models `src/scripts/generate_pages.py` (sequential slugs,
  numeric coercion of rating/review fields, `http` scheme check).

Strings are modelled by Lean `String` (a list of characters); Python's
`str.strip` family is modelled over the ASCII whitespace set.  Machine
integers do not occur (Python integers are unbounded, as is Lean `Nat`).
-/

namespace PetGrooming

/-- Python `str.strip()` whitespace characters (ASCII subset: space, tab,
newline, carriage return, vertical tab, form feed). -/
def wsChar (c : Char) : Bool :=
  c == ' ' || c == '\t' || c == '\n' || c == '\r' || c == Char.ofNat 11 || c == Char.ofNat 12

/-- Drop characters satisfying `p` from both ends of a character list, as
Python `str.strip` does. -/
def stripEnds (p : Char → Bool) (l : List Char) : List Char :=
  List.rdropWhile p (List.dropWhile p l)

/-- Python `s.strip()` (default whitespace stripping). -/
def pyStrip (s : String) : String :=
  ⟨stripEnds wsChar s.data⟩

/-- Python `s.strip(cs)` for an explicit character set. -/
def pyStripChars (cs : List Char) (s : String) : String :=
  ⟨stripEnds (fun c => cs.contains c) s.data⟩

/-- Python `s.lstrip(cs)` for an explicit character set. -/
def pyLStripChars (cs : List Char) (s : String) : String :=
  ⟨s.data.dropWhile (fun c => cs.contains c)⟩

/-- Python `s.rstrip(cs)` for an explicit character set. -/
def pyRStripChars (cs : List Char) (s : String) : String :=
  ⟨List.rdropWhile (fun c => cs.contains c) s.data⟩

/-- Keep a character iff it is neither of the two separator glyphs removed by
`clean_value` (`·`, U+00B7, and `⋅`, U+22C5). -/
def notSep (c : Char) : Bool :=
  !(c == '·' || c == '⋅')

/-- Python `text.replace("⋅", "").replace("·", "")` from
`src/generate_pages.py`: removing every occurrence of a single character is
filtering it out. -/
def removeSeps (s : String) : String :=
  ⟨s.data.filter notSep⟩

/-- `clean_value` from `src/generate_pages.py` (line 58):
`text.replace("⋅", "").replace("·", "").strip()`. -/
def clean_value (s : String) : String :=
  pyStrip (removeSeps s)

/-- `clean_text` from `src/scripts/generate_pages.py` (lines 81-85):
`if not value: return None; stripped = value.strip().lstrip("⋅").strip();
return stripped or None`. -/
def clean_text : Option String → Option String
  | none => none
  | some v =>
    if v = "" then none
    else
      let t := pyStrip (pyLStripChars ['⋅'] (pyStrip v))
      if t = "" then none else some t

/-! ### Decimal numerals

Python's `f"{n}"` and `f"{n:02d}"` print natural numbers in decimal.  We model
the decimal numeral through `Nat.digits`. -/

/-- The character for a single decimal digit. -/
def digitChar10 : Nat → Char
  | 0 => '0'
  | 1 => '1'
  | 2 => '2'
  | 3 => '3'
  | 4 => '4'
  | 5 => '5'
  | 6 => '6'
  | 7 => '7'
  | 8 => '8'
  | 9 => '9'
  | _ => '*'

/-- Base-10 digit list of `n`, least significant first, with an explicit
fuel argument to keep the recursion structural. -/
def natDigitsFuel : Nat → Nat → List Nat
  | 0, _ => []
  | fuel + 1, n => if n = 0 then [] else n % 10 :: natDigitsFuel fuel (n / 10)

/-- Base-10 digit list of `n`, least significant first. -/
def natDigits (n : Nat) : List Nat :=
  natDigitsFuel n n

/-- Decimal numeral of a natural number, most significant digit first. -/
def natDecimal (n : Nat) : String :=
  if n = 0 then "0" else ⟨((natDigits n).map digitChar10).reverse⟩

/-! ### The name-derived slug policy (`slugify`, `src/generate_pages.py` lines 31-41) -/

/-- Characters kept by the regex class `[a-zA-Z0-9一-鿿]` in
`slugify`. -/
def slugAllowed (c : Char) : Bool :=
  (97 ≤ c.toNat && c.toNat ≤ 122) || (65 ≤ c.toNat && c.toNat ≤ 90) ||
    (48 ≤ c.toNat && c.toNat ≤ 57) || (19968 ≤ c.toNat && c.toNat ≤ 40959)

/-- Worker for `collapseRuns`: the flag records whether the previous
character belonged to a disallowed run (so the run's hyphen was already
emitted). -/
def collapseAux : List Char → Bool → List Char
  | [], _ => []
  | c :: rest, inRun =>
    if slugAllowed c then c :: collapseAux rest false
    else if inRun then collapseAux rest true
    else '-' :: collapseAux rest true

/-- `re.sub(r"[^a-zA-Z0-9一-鿿]+", "-", ·)`: every maximal run of
disallowed characters becomes a single hyphen. -/
def collapseRuns (l : List Char) : List Char :=
  collapseAux l false

/-- Python `str.lower()`.  After `collapseRuns` and hyphen stripping the
string contains only ASCII letters, digits, CJK ideographs and hyphens, on
which `Char.toLower` agrees with Python. -/
def pyLower (s : String) : String :=
  ⟨s.data.map Char.toLower⟩

/-- The de-duplication base of `slugify`:
`re.sub(...).strip("-").lower()`, with the `"store"` fallback for an empty
result. -/
def slugBase (name : String) : String :=
  let b := pyLower (pyStripChars ['-'] ⟨collapseRuns name.data⟩)
  if b = "" then "store" else b

/-- The collision-resolution loop of `slugify`: starting from `slug` and
`counter`, keep proposing `f"{base}-{counter}"` while the current proposal is
taken.  `fuel` bounds the iteration count; `existing.length + 1` tries always
suffice. -/
def slugLoop (base : String) (existing : List String) : Nat → Nat → String → String
  | 0, _, slug => slug
  | fuel + 1, counter, slug =>
    if slug ∈ existing then
      slugLoop base existing fuel (counter + 1) (base ++ "-" ++ natDecimal counter)
    else slug

/-- `slugify(name, existing)` from `src/generate_pages.py`: returns the
assigned slug and the updated assigned-slug set (Python mutates `existing`
via `existing.add(slug)`; here the updated set is returned). -/
def slugify (name : String) (existing : List String) : String × List String :=
  let base := slugBase name
  let slug := slugLoop base existing (existing.length + 1) 2 base
  (slug, slug :: existing)

/-! ### The sequential slug policy (`src/scripts/generate_pages.py` line 117) -/

/-- Python `f"{n:02d}"`: decimal numeral zero-padded on the left to width 2. -/
def pad2 (n : Nat) : String :=
  if n < 10 then "0" ++ natDecimal n else natDecimal n

/-- `f"store-{n:02d}"`, the sequential slug for the `n`-th record (1-based). -/
def seqSlug (n : Nat) : String :=
  "store-" ++ pad2 n

/-! ### The image mapping (Python `dict`) and its read-only lookup -/

/-- Python `s.startswith(p)`. -/
def strStartsWith (s p : String) : Bool :=
  p.data.isPrefixOf s.data

/-- The image mapping, as an association list of `map_url ↦ image_url`
entries (Python `dict[str, str]`). -/
abbrev Dict := List (String × String)

/-- Python `images.get(key)`: returns the looked-up value and the mapping
itself, which a `dict.get` never mutates. -/
def dictGet (d : Dict) (k : String) : Option String × Dict :=
  (d.lookup k, d)

/-! ### Numeric coercions (`src/scripts/generate_pages.py` lines 69-78) -/

/-- Decimal value of a list of digit characters, as Python `int` parses it. -/
def digitsVal (l : List Char) : Nat :=
  l.foldl (fun a c => 10 * a + (c.toNat - 48)) 0

/-- `coerce_int`: `re.sub(r"[^0-9]", "", value)` discards every non-digit
character; the remaining digits parse as a decimal integer, `None` if no
digit remains. -/
def coerce_int (v : String) : Option Nat :=
  let ds := v.data.filter Char.isDigit
  if ds = [] then none else some (digitsVal ds)

/-- Plain-decimal fragment of Python `float()` literal parsing: digits with
an optional decimal point (`"7"`, `"4.5"`, `".5"`, `"4."`).  This is a
placeholder for the record's rating slot only: `float()` additionally
accepts exponents, underscore separators, `inf`/`nan` and non-ASCII decimal
digits, and it yields a binary64 value rather than an exact rational — all
floating-point behaviour that this embedding does not capture.  No theorem
in this file depends on this function's domain or values. -/
def pyFloatCore (l : List Char) : Option ℚ :=
  let ip := l.takeWhile Char.isDigit
  match l.dropWhile Char.isDigit with
  | [] => if ip.isEmpty then none else some (digitsVal ip)
  | c :: fp =>
    if c = '.' && fp.all Char.isDigit && (!ip.isEmpty || !fp.isEmpty) then
      some ((digitsVal ip : ℚ) + (digitsVal fp : ℚ) / (10 : ℚ) ^ fp.length)
    else none

/-- `coerce_float`: Python `float(value)` with failures mapped to `None`,
restricted to the plain-decimal fragment of `pyFloatCore` (sign, digits,
optional decimal point, after whitespace stripping).  A placeholder for the
rating slot: the true `float()` is binary64 floating point, and no theorem
in this file asserts anything about the parsed rating's presence or value. -/
def coerce_float (s : String) : Option ℚ :=
  match (pyStrip s).data with
  | '-' :: t => (pyFloatCore t).map (fun q => -q)
  | '+' :: t => pyFloatCore t
  | l => pyFloatCore l

/-- An image mapping with an entry for `rowA1`'s map link. -/
def imagesA1 : Dict := [("http://m", "http://img")]

/-- A scripts-variant row with duplicate service cells and a two-glyph
separator token. -/
def rowB1 : List String :=
  ["", "http://m", "Shop", "N/A", "(12)", "cat", "", "addr", "st", "hr",
    "https://w", "", "", "", "", "", "09-123", "x", "x", "··"]

/-! ### HTML escaping and substring containment -/

/-- `html.escape` (CPython, `quote=True`) of one character.  The
characterwise map coincides with CPython's sequential `str.replace`
implementation because `&` is replaced first and no inserted entity
contains a later target character. -/
def escChar (c : Char) : String :=
  if c = '&' then "&amp;"
  else if c = '<' then "&lt;"
  else if c = '>' then "&gt;"
  else if c = '"' then "&quot;"
  else if c = Char.ofNat 39 then "&#x27;"
  else ⟨[c]⟩

/-- `html.escape(s)`. -/
def escape (s : String) : String :=
  String.join (s.data.map escChar)

/-- Substring search over character lists: does `n` occur contiguously in
`h`? -/
def containsCL : List Char → List Char → Bool
  | [], n => n.isEmpty
  | c :: t, n => n.isPrefixOf (c :: t) || containsCL t n

/-- Does the string `n` occur contiguously in `h`? -/
def sContains (h n : String) : Bool :=
  containsCL h.data n.data

/-- Python truthiness of an `Optional[str]` field. -/
def truthy : Option String → Bool
  | none => false
  | some s => !(s == "")

/-- Python `value or fallback` for an `Optional[str]` display value. -/
def orFallback : Option String → String → String
  | none, fb => fb
  | some s, fb => if s = "" then fb else s

namespace Root

/-- A CSV row as `csv.DictReader` presents it: `row.get(column, "")`. -/
def Row := String → String

/-- The `Store` dataclass of `src/generate_pages.py`.  The code stores the
cleaned string itself (possibly empty) in `rating` … `hours`, so those
fields hold `some` of a possibly-empty string; `website` and `phone` use
`... or None`. -/
structure Store where
  name : String
  map_url : String
  rating : Option String
  review_count : Option String
  category : Option String
  address : Option String
  status : Option String
  hours : Option String
  website : Option String
  phone : Option String
  features : List String
  image_url : Option String
  slug : String
deriving DecidableEq

/-- One accepted row's record, before slug assignment (the body of the
`for row in reader` loop in `load_stores`, lines 75-93). -/
def mkStore (images : Dict) (row : Row) (slug : String) : Store :=
  let map_url := pyStrip (row "hfpxzc href")
  let website0 := pyStrip (row "lcr4fd href")
  let phone0 := clean_value (row "UsdlK")
  { name := pyStrip (row "qBF1Pd")
    map_url := map_url
    rating := some (clean_value (row "MW4etd"))
    review_count := some (clean_value (pyStripChars ['(', ')'] (row "UY7F9")))
    category := some (clean_value (row "W4Efsd"))
    address := some (clean_value (row "W4Efsd (3)"))
    status := some (clean_value (row "W4Efsd (4)"))
    hours := some (clean_value (row "W4Efsd (5)"))
    website := if website0 = "" then none else some website0
    phone := if phone0 = "" then none else some phone0
    features := ["ah5Ghc", "ah5Ghc (2)"].filterMap (fun k =>
      let v := clean_value (row k)
      if v = "" then none else some v)
    image_url := (dictGet images map_url).1
    slug := slug }

/-- `load_stores` loop: skips rows with an empty (stripped) name, otherwise
builds the record, joins the image and assigns the slug; the image mapping
is threaded through each lookup, the slug set through each assignment. -/
def load_stores_aux : Dict → List Row → List String → List Store × Dict
  | d, [], _ => ([], d)
  | d, row :: rest, seen =>
    if pyStrip (row "qBF1Pd") = "" then load_stores_aux d rest seen
    else
      let d1 := (dictGet d (pyStrip (row "hfpxzc href"))).2
      let store := mkStore d row (slugify (pyStrip (row "qBF1Pd")) seen).1
      let tail := load_stores_aux d1 rest (slugify (pyStrip (row "qBF1Pd")) seen).2
      (store :: tail.1, tail.2)

/-- `load_stores` from `src/generate_pages.py`: starts from an empty
assigned-slug set and returns the records together with the image mapping
as it stands afterwards. -/
def load_stores (images : Dict) (rows : List Row) : List Store × Dict :=
  load_stores_aux images rows []

/-- `display_name = store.name.rstrip("|｜") or store.name` (line 202). -/
def displayName (s : Store) : String :=
  let t := pyRStripChars ['|', '｜'] s.name
  if t = "" then s.name else t

/-- The conditional `meta_items` list (lines 204-212): address, phone,
status, opening hours, each present only when truthy. -/
def metaItems (s : Store) : List String :=
  (if truthy s.address then
    ["<li class=\x27info-item\x27><strong>地址</strong><br>" ++ escape (s.address.getD "") ++ "</li>"]
  else []) ++
  (if truthy s.phone then
    ["<li class=\x27info-item\x27><strong>電話</strong><br>" ++ escape (s.phone.getD "") ++ "</li>"]
  else []) ++
  (if truthy s.status then
    ["<li class=\x27info-item\x27><strong>營業狀態</strong><br>" ++ escape (s.status.getD "") ++ "</li>"]
  else []) ++
  (if truthy s.hours then
    ["<li class=\x27info-item\x27><strong>營業時間</strong><br>" ++ escape (s.hours.getD "") ++ "</li>"]
  else [])

/-- `features_html` (lines 214-216). -/
def featuresHtml (s : Store) : String :=
  String.join (s.features.map (fun f => "<span class=\x27badge\x27>" ++ escape f ++ "</span>"))

/-- `image_block` (lines 218-222). -/
def imageBlock (s : Store) : String :=
  if truthy s.image_url then
    "<div class=\x27thumb\x27><img src=\x27" ++ escape (s.image_url.getD "")
      ++ ("\x27 alt=\x27" ++ escape (displayName s) ++ "\x27></div>")
  else "<div class=\x27thumb\x27></div>"

/-- The pieces of the `store_html` f-string (lines 224-260), in order:
literal template fragments interleaved with the interpolated values. -/
def pageParts (s : Store) : List String :=
  ["<!doctype html>\n<html lang=\x27zh-Hant\x27>\n  <head>\n    <meta charset=\x27utf-8\x27>\n    <meta name=\x27viewport\x27 content=\x27width=device-width, initial-scale=1\x27>\n    <title>",
    escape (displayName s),
    "｜寵物美容店家</title>\n    <link rel=\x27stylesheet\x27 href=\x27../assets/style.css\x27>\n  </head>\n  <body>\n    <div class=\x27hero\x27>\n      <a class=\x27chip\x27 href=\x27../index.html\x27>← 返回列表</a>\n      <h1>",
    escape (displayName s),
    "</h1>\n      <p class=\x27meta\x27>\n        <span>⭐ ",
    escape (orFallback s.rating "尚無評分"),
    "</span>\n        ",
    (if truthy s.review_count then
      "<span>(" ++ escape (s.review_count.getD "") ++ " 則評論)</span>" else ""),
    "\n        ",
    (if truthy s.category then
      "<span>" ++ escape (s.category.getD "") ++ "</span>" else ""),
    "\n      </p>\n    </div>\n    <div class=\x27layout\x27>\n      <div class=\x27section\x27>\n        ",
    imageBlock s,
    "\n        <div class=\x27button-row\x27 style=\x27margin-top:12px;\x27>\n          <a class=\x27button primary\x27 href=\x27",
    escape s.map_url,
    "\x27 target=\x27_blank\x27 rel=\x27noreferrer\x27>在地圖查看</a>\n          ",
    (if truthy s.website then
      "<a class=\x27button\x27 href=\x27" ++ escape (s.website.getD "")
        ++ "\x27 target=\x27_blank\x27 rel=\x27noreferrer\x27>官方網站</a>" else ""),
    "\n        </div>\n        ",
    (if featuresHtml s = "" then ""
      else "<div style=\x27margin-top:12px;\x27>" ++ featuresHtml s ++ "</div>"),
    "\n      </div>\n\n      <div class=\x27section\x27>\n        <h2>店家資訊</h2>\n        <ul class=\x27info-list\x27>\n          ",
    String.join (metaItems s),
    "\n        </ul>\n      </div>\n    </div>\n  </body>\n</html>"]

/-- `render_store_page`, restricted to the document text it writes (the
f-string is the concatenation of its pieces). -/
def render_store_page (s : Store) : String :=
  String.join (pageParts s)

/-- Write-effect model of `build_site` (lines 265-270): the paths of the
pages it writes, in order — the index page, then one detail page per
record, under the record's slug.  It performs no emptiness check and never
fails. -/
def build_site (stores : List Store) : Except String (List String) :=
  Except.ok ("index.html" :: stores.map (fun s => s.slug ++ "/index.html"))

end Root

namespace Scripts

/-- The `Store` dataclass of `src/scripts/generate_pages.py`. -/
structure Store where
  slug : String
  name : String
  map_url : String
  rating : Option ℚ
  review_count : Option Nat
  category : Option String
  address : Option String
  status : Option String
  hours_note : Option String
  website : Option String
  phone : Option String
  services : List String
  image_url : Option String
deriving DecidableEq

/-- The body of the `for row in reader` loop of `parse_stores` for the row
that would become the `n+1`-st record: `None` when the row is skipped
(fewer than 3 columns, or empty/`http`-less key fields). -/
def parse_row (images : Dict) (n : Nat) (row : List String) : Option Store :=
  if row.length < 3 then none
  else
    if pyStrip (row.getD 1 "") ≠ "" ∧ pyStrip (row.getD 2 "") ≠ "" ∧
        strStartsWith (pyStrip (row.getD 1 "")) "http" = true then
      some
        { slug := seqSlug (n + 1)
          name := pyStrip (row.getD 2 "")
          map_url := pyStrip (row.getD 1 "")
          rating := if 3 < row.length then coerce_float (pyStrip (row.getD 3 "")) else none
          review_count := if 4 < row.length then coerce_int (row.getD 4 "") else none
          category := clean_text (if 5 < row.length then some (row.getD 5 "") else none)
          address := clean_text (if 7 < row.length then some (row.getD 7 "") else none)
          status := clean_text (if 8 < row.length then some (row.getD 8 "") else none)
          hours_note := clean_text (if 9 < row.length then some (row.getD 9 "") else none)
          website :=
            if strStartsWith (if 10 < row.length then pyStrip (row.getD 10 "") else "") "http"
            then some (if 10 < row.length then pyStrip (row.getD 10 "") else "")
            else none
          phone := clean_text (if 16 < row.length then some (row.getD 16 "") else none)
          services := (row.drop 17).filterMap (fun chunk =>
            match clean_text (some chunk) with
            | some t => if t = "·" then none else some t
            | none => none)
          image_url := (dictGet images (pyStrip (row.getD 1 ""))).1 }
    else none

/-- `parse_stores` loop: `n` counts the records accepted so far
(`len(stores)` in the source), which numbers the sequential slugs. -/
def parse_stores_aux (images : Dict) : List (List String) → Nat → List Store
  | [], _ => []
  | row :: rest, n =>
    match parse_row images n row with
    | none => parse_stores_aux images rest n
    | some s => s :: parse_stores_aux images rest (n + 1)

/-- `parse_stores` from `src/scripts/generate_pages.py`. -/
def parse_stores (images : Dict) (rows : List (List String)) : List Store :=
  parse_stores_aux images rows 0

/-- Write-effect model of `generate_pages` (lines 265-283): raises
`SystemExit` when no records were parsed, otherwise writes the JSON
snapshot, the index page and one detail page per record under
`stores/<slug>/`. -/
def generate_pages (stores : List Store) : Except String (List String) :=
  if stores.isEmpty then Except.error "No stores found to generate"
  else Except.ok ("data/stores.json" :: "index.html" ::
    stores.map (fun s => "stores/" ++ s.slug ++ "/index.html"))

/-- The pieces joined by `Store.badge_text` (lines 44-52): category, status
and opening-hours note, each included only when truthy. -/
def badgePieces (s : Store) : List String :=
  (if truthy s.category then [s.category.getD ""] else []) ++
  (if truthy s.status then [s.status.getD ""] else []) ++
  (if truthy s.hours_note then [s.hours_note.getD ""] else [])

/-- `badge_text`: `" · ".join(pieces)`. -/
def badge_text (s : Store) : String :=
  String.intercalate " · " (badgePieces s)

/-- `website_link` (line 214): rendered only for a truthy website. -/
def websiteLink (s : Store) : String :=
  if truthy s.website then
    "<a class=\"button\" href=\"" ++ escape (s.website.getD "")
      ++ ("\" target=\"_blank\" rel=\"noopener\">造訪官方網站</a>")
  else ""

/-- `phone_line` (line 215): rendered only for a truthy phone. -/
def phoneLine (s : Store) : String :=
  if truthy s.phone then
    "<a class=\"button button--ghost\" href=\"tel:" ++ escape (s.phone.getD "")
      ++ ("\">撥打 " ++ escape (s.phone.getD "") ++ " </a>")
  else ""

/-- One-fractional-digit decimal rendering of a non-negative rational,
standing in for CPython's `f"{x:.1f}"`.  CPython formats the binary64 value
with round-half-even; this placeholder rounds the exact rational half-up —
a floating-point discrepancy no theorem in this file depends on. -/
def decimal1abs (q : ℚ) : String :=
  let n : Nat := (⌊q * 10 + 1 / 2⌋).toNat
  natDecimal (n / 10) ++ "." ++ natDecimal (n % 10)

/-- Signed version of `decimal1abs` (see its caveat). -/
def decimal1 (q : ℚ) : String :=
  if q < 0 then "-" ++ decimal1abs (-q) else decimal1abs q

/-- `rating = f"{store.rating:.1f}" if store.rating is not None else "--"`
(line 208). -/
def ratingText (s : Store) : String :=
  match s.rating with
  | none => "--"
  | some q => decimal1 q

/-- `reviews = f"（{store.review_count} 則評論）" if store.review_count is
not None else ""` (line 209). -/
def reviewsText (s : Store) : String :=
  match s.review_count with
  | none => ""
  | some n => "（" ++ natDecimal n ++ " 則評論）"

/-- `services` (line 210): the joined `<li>` items, or the fallback item
when the record has no services. -/
def servicesHtml (s : Store) : String :=
  if String.join (s.services.map (fun i => "<li>" ++ escape i ++ "</li>")) = ""
  then "<li>歡迎電話洽詢服務內容</li>"
  else String.join (s.services.map (fun i => "<li>" ++ escape i ++ "</li>"))

/-- The pieces of the `render_store` f-string (lines 218-262), in order:
literal template fragments interleaved with the interpolated values. -/
def pageParts (s : Store) : List String :=
  ["<!doctype html>\n<html lang=\"zh-Hant\">\n<head>\n  <meta charset=\"utf-8\" />\n  <meta name=\"viewport\" content=\"width=device-width, initial-scale=1\" />\n  <title>",
    escape s.name,
    "｜台中寵物美容店</title>\n  <link rel=\"stylesheet\" href=\"../../assets/style.css\" />\n</head>\n<body>\n  <header class=\"hero\">\n    <div class=\"container\">\n      <p class=\"eyebrow\">獨立店家頁面</p>\n      <h1>",
    escape s.name,
    "</h1>\n      <p class=\"lede\">",
    escape (if badge_text s = "" then "提供專業寵物美容服務" else badge_text s),
    "</p>\n      <div class=\"actions\">\n        <a class=\"button\" href=\"",
    escape s.map_url,
    "\" target=\"_blank\" rel=\"noopener\">查看地圖 / 導航</a>\n        ",
    websiteLink s,
    "\n        ",
    phoneLine s,
    "\n        <a class=\"button button--ghost\" href=\"../../index.html\">回到店家索引</a>\n      </div>\n    </div>\n  </header>\n  <main class=\"container layout\">\n    <div class=\"layout__media\">\n      <img src=\"",
    escape (orFallback s.image_url "https://via.placeholder.com/960x540?text=Pet+Grooming"),
    "\" alt=\"",
    escape s.name,
    "\" />\n    </div>\n    <div class=\"layout__content\">\n      <div class=\"pill\">⭐ ",
    ratingText s,
    " ",
    reviewsText s,
    "</div>\n      <p class=\"detail\"><strong>地址：</strong>",
    escape (orFallback s.address "地址未提供"),
    "</p>\n      <p class=\"detail\"><strong>營業狀態：</strong>",
    escape (orFallback s.status "營業狀態未提供"),
    "</p>\n      <p class=\"detail\"><strong>營業時間：</strong>",
    escape (orFallback s.hours_note "歡迎電話詢問營業時間"),
    "</p>\n      <p class=\"detail\"><strong>聯絡電話：</strong>",
    (if truthy s.phone then escape (s.phone.getD "") else "未提供"),
    "</p>\n      <p class=\"detail\"><strong>地圖連結：</strong><a href=\"",
    escape s.map_url,
    "\" target=\"_blank\" rel=\"noopener\">在地圖上查看</a></p>\n      <h2>服務與備註</h2>\n      <ul class=\"list\">",
    servicesHtml s,
    "</ul>\n    </div>\n  </main>\n  <footer class=\"footer\">\n    <div class=\"container\">\n      <p>此頁面由 CSV 自動生成，可直接透過 GitHub Pages 發佈。</p>\n    </div>\n  </footer>\n</body>\n</html>\n"]

/-- `render_store`, restricted to the document text it writes (the
f-string is the concatenation of its pieces). -/
def render_store (s : Store) : String :=
  String.join (pageParts s)

end Scripts

/-! ### Concrete inputs used by witnesses and counterexamples -/

/-- A root-variant row: name `A`, map link `http://m`, one feature cell. -/
def rowA1 : Root.Row := fun k =>
  if k = "qBF1Pd" then "A"
  else if k = "hfpxzc href" then "http://m"
  else if k = "ah5Ghc" then "f·1"
  else ""

/-- The record `load_stores imagesA1 [rowA1]` produces. -/
def storeA1 : Root.Store :=
  { name := "A", map_url := "http://m", rating := some "", review_count := some "",
    category := some "", address := some "", status := some "", hours := some "",
    website := none, phone := none, features := ["f1"],
    image_url := some "http://img", slug := "a" }

/-- A root-variant row whose category cell is a bare separator glyph. -/
def rowC2 : Root.Row := fun k =>
  if k = "qBF1Pd" then "A" else if k = "W4Efsd" then "·" else ""

/-- A root-variant row whose rating cell is unparsable. -/
def rowC3 : Root.Row := fun k =>
  if k = "qBF1Pd" then "A" else if k = "MW4etd" then "N/A" else ""

/-- A root-variant row whose website cell has no URL scheme. -/
def rowC5 : Root.Row := fun k =>
  if k = "qBF1Pd" then "A" else if k = "lcr4fd href" then "example.com" else ""

/-- The record `parse_stores [] [rowB1]` produces. -/
def storeB1 : Scripts.Store :=
  { slug := "store-01", name := "Shop", map_url := "http://m", rating := none,
    review_count := some 12, category := some "cat", address := some "addr",
    status := some "st", hours_note := some "hr", website := some "https://w",
    phone := some "09-123", services := ["x", "x", "··"], image_url := none }

/-- A root-variant row whose name ends in a vertical bar and whose other
cells are empty. -/
def rowC8 : Root.Row := fun k =>
  if k = "qBF1Pd" then "Shop|" else ""

/-- An arbitrary fully-populated record for exercising the renderer. -/
def storeC8w : Root.Store :=
  { name := "N", map_url := "m", rating := some "4.5", review_count := some "12",
    category := some "c", address := some "ad", status := some "st", hours := some "hr",
    website := some "http://w", phone := some "ph", features := ["ft"],
    image_url := some "http://i", slug := "n" }

/-- A fully-populated scripts-variant record (rating left absent: its
present form is binary64-formatted, about which nothing is asserted). -/
def storeC8s : Scripts.Store :=
  { slug := "store-01", name := "N", map_url := "m", rating := none,
    review_count := some 12, category := some "c", address := some "ad",
    status := some "st", hours_note := some "hr", website := some "http://w",
    phone := some "ph", services := ["sv"], image_url := some "http://i" }

/-- A scripts-variant record with every optional field absent. -/
def storeC8e : Scripts.Store :=
  { slug := "store-02", name := "E", map_url := "m2", rating := none,
    review_count := none, category := none, address := none, status := none,
    hours_note := none, website := none, phone := none, services := [],
    image_url := none }


/-! ### Idempotence of the cleaning functions (claim C4) -/

theorem stripEnds_mem {p : Char → Bool} {l : List Char} {c : Char}
    (h : c ∈ stripEnds p l) : c ∈ l := by
  have h1 : List.rdropWhile p (List.dropWhile p l) <+: List.dropWhile p l :=
    List.rdropWhile_prefix p (List.dropWhile p l)
  have h2 : List.dropWhile p l <:+ l := List.dropWhile_suffix p
  exact h2.sublist.subset (h1.sublist.subset h)

theorem dropWhile_head_not {p : Char → Bool} :
    ∀ {l a : _} {t : List Char}, List.dropWhile p l = a :: t → p a = false := by
  intro l
  induction l with
  | nil => intro a t h; simp at h
  | cons x xs ih =>
    intro a t h
    by_cases hx : p x
    · rw [List.dropWhile_cons, if_pos hx] at h
      exact ih h
    · rw [List.dropWhile_cons, if_neg hx] at h
      cases h
      simpa using hx

theorem dropWhile_stripEnds {p : Char → Bool} (l : List Char) :
    List.dropWhile p (stripEnds p l) = stripEnds p l := by
  unfold stripEnds
  have h1 : List.rdropWhile p (List.dropWhile p l) <+: List.dropWhile p l :=
    List.rdropWhile_prefix p (List.dropWhile p l)
  rcases hr : List.rdropWhile p (List.dropWhile p l) with _ | ⟨a, t⟩
  · simp
  · rw [hr] at h1
    obtain ⟨u, hu⟩ := h1
    have hd : List.dropWhile p l = a :: (t ++ u) := by
      rw [← hu]; simp
    have ha : p a = false := dropWhile_head_not hd
    simp [List.dropWhile_cons, ha]

theorem stripEnds_idem {p : Char → Bool} (l : List Char) :
    stripEnds p (stripEnds p l) = stripEnds p l := by
  show List.rdropWhile p (List.dropWhile p (stripEnds p l)) = stripEnds p l
  rw [dropWhile_stripEnds l]
  show List.rdropWhile p (List.rdropWhile p (List.dropWhile p l))
      = List.rdropWhile p (List.dropWhile p l)
  exact List.rdropWhile_idempotent p (List.dropWhile p l)

theorem filter_stripEnds {p : Char → Bool} {q : Char → Bool} (l : List Char)
    (h : ∀ c ∈ l, q c) : (stripEnds p l).filter q = stripEnds p l :=
  List.filter_eq_self.mpr fun c hc => h c (stripEnds_mem hc)

/-- **C4** (amended) — `clean_value` is idempotent: its output contains no
separator glyph and carries no surrounding whitespace, so a second pass
returns it unchanged.  (`clean_text` is not idempotent; see the
counterexample.) -/
theorem claim_c4_amended (s : String) : clean_value (clean_value s) = clean_value s := by
  show pyStrip (removeSeps (pyStrip (removeSeps s))) = pyStrip (removeSeps s)
  have hdata : (pyStrip (removeSeps s)).data = stripEnds wsChar (s.data.filter notSep) := rfl
  have hfilter : (stripEnds wsChar (s.data.filter notSep)).filter notSep
      = stripEnds wsChar (s.data.filter notSep) := by
    apply filter_stripEnds
    intro c hc
    exact List.of_mem_filter hc
  show pyStrip ⟨(pyStrip (removeSeps s)).data.filter notSep⟩ = pyStrip (removeSeps s)
  rw [hdata, hfilter]
  show (⟨stripEnds wsChar (stripEnds wsChar (s.data.filter notSep))⟩ : String)
      = ⟨stripEnds wsChar (s.data.filter notSep)⟩
  rw [stripEnds_idem]

/-- **C4** — counterexample to idempotence of `clean_text`: a first pass over
`"⋅ ⋅x"` removes only the first leading small dot (the blank stops
`lstrip("⋅")`), the final `strip()` then exposes a new leading small dot, and
a second pass removes it. -/
theorem claim_c4_counterexample :
    clean_text (clean_text (some "⋅ ⋅x")) ≠ clean_text (some "⋅ ⋅x") := by
  decide

theorem natDigitsFuel_eq : ∀ (fuel n : Nat), n ≤ fuel → natDigitsFuel fuel n = Nat.digits 10 n := by
  intro fuel
  induction fuel with
  | zero =>
    intro n hn
    have : n = 0 := by omega
    simp [this, natDigitsFuel]
  | succ fuel ih =>
    intro n hn
    by_cases h0 : n = 0
    · simp [h0, natDigitsFuel]
    · rw [natDigitsFuel, if_neg h0,
        Nat.digits_def' (by norm_num : (1 : Nat) < 10) (Nat.pos_of_ne_zero h0)]
      have hdiv : n / 10 ≤ fuel := by
        have := Nat.div_lt_self (Nat.pos_of_ne_zero h0) (by norm_num : (1 : Nat) < 10)
        omega
      rw [ih (n / 10) hdiv]

theorem natDigits_eq (n : Nat) : natDigits n = Nat.digits 10 n :=
  natDigitsFuel_eq n n (Nat.le_refl n)

theorem natDecimal_eq_digits (n : Nat) :
    natDecimal n = if n = 0 then "0" else ⟨((Nat.digits 10 n).map digitChar10).reverse⟩ := by
  rw [natDecimal, natDigits_eq]

theorem digitChar10_inj : ∀ a < 10, ∀ b < 10, digitChar10 a = digitChar10 b → a = b := by
  decide

theorem digitChar10_eq_zero : ∀ a < 10, digitChar10 a = '0' → a = 0 := by
  decide

theorem map_digitChar10_inj :
    ∀ {l₁ l₂ : List Nat}, (∀ x ∈ l₁, x < 10) → (∀ x ∈ l₂, x < 10) →
      l₁.map digitChar10 = l₂.map digitChar10 → l₁ = l₂ := by
  intro l₁
  induction l₁ with
  | nil => intro l₂ _ _ h; cases l₂ <;> simp_all
  | cons x xs ih =>
    intro l₂ h₁ h₂ h
    cases l₂ with
    | nil => simp at h
    | cons y ys =>
      simp only [List.map_cons, List.cons.injEq] at h
      have hx : x = y := digitChar10_inj x (h₁ x (by simp)) y (h₂ y (by simp)) h.1
      have ht : xs = ys := ih (fun z hz => h₁ z (by simp [hz])) (fun z hz => h₂ z (by simp [hz])) h.2
      rw [hx, ht]

theorem natDecimal_inj {a b : Nat} (ha : a ≠ 0) (hb : b ≠ 0)
    (h : natDecimal a = natDecimal b) : a = b := by
  rw [natDecimal_eq_digits, natDecimal_eq_digits] at h
  rw [if_neg ha, if_neg hb] at h
  have hdata : ((Nat.digits 10 a).map digitChar10).reverse
      = ((Nat.digits 10 b).map digitChar10).reverse := congrArg String.data h
  have hmap := List.reverse_injective hdata
  have hdig : Nat.digits 10 a = Nat.digits 10 b :=
    map_digitChar10_inj (fun x hx => Nat.digits_lt_base (by norm_num) hx)
      (fun x hx => Nat.digits_lt_base (by norm_num) hx) hmap
  calc a = Nat.ofDigits 10 (Nat.digits 10 a) := (Nat.ofDigits_digits 10 a).symm
    _ = Nat.ofDigits 10 (Nat.digits 10 b) := by rw [hdig]
    _ = b := Nat.ofDigits_digits 10 b

theorem natDecimal_ne_empty (n : Nat) : natDecimal n ≠ "" := by
  rw [natDecimal_eq_digits]
  by_cases hn : n = 0
  · rw [if_pos hn]; decide
  · rw [if_neg hn]
    intro h
    have hdata : ((Nat.digits 10 n).map digitChar10).reverse = [] := congrArg String.data h
    have : Nat.digits 10 n = [] := by
      have := List.reverse_eq_nil_iff.mp hdata
      simpa using this
    exact (Nat.digits_ne_nil_iff_ne_zero.mpr hn) this

/-- Left cancellation for list append. -/
theorem append_cancelL {α : Type} : ∀ (a : List α) {b c : List α}, a ++ b = a ++ c → b = c := by
  intro a
  induction a with
  | nil => intro b c h; simpa using h
  | cons x xs ih =>
    intro b c h
    simp only [List.cons_append, List.cons.injEq] at h
    exact ih h.2

theorem string_ext {a b : String} (h : a.data = b.data) : a = b := by
  cases a; cases b; exact congrArg String.mk h

theorem slugLoop_not_mem (base : String) (existing : List String) :
    ∀ (fuel counter : Nat) (slug : String),
      (∃ c ∈ slug :: (List.range fuel).map (fun i => base ++ "-" ++ natDecimal (counter + i)),
        c ∉ existing) →
      slugLoop base existing fuel counter slug ∉ existing := by
  intro fuel
  induction fuel with
  | zero =>
    intro counter slug h
    obtain ⟨c, hc, hnc⟩ := h
    simp only [List.range_zero, List.map_nil, List.mem_singleton] at hc
    rw [hc] at hnc
    simpa [slugLoop] using hnc
  | succ fuel ih =>
    intro counter slug h
    by_cases hs : slug ∈ existing
    · rw [slugLoop, if_pos hs]
      apply ih (counter + 1) (base ++ "-" ++ natDecimal counter)
      obtain ⟨c, hc, hnc⟩ := h
      rcases List.mem_cons.mp hc with hceq | hcm
      · exact absurd hs (hceq ▸ hnc)
      · refine ⟨c, ?_, hnc⟩
        rw [List.range_succ_eq_map, List.map_cons, List.map_map] at hcm
        rcases List.mem_cons.mp hcm with hceq | hcm2
        · rw [List.mem_cons]; left; simpa using hceq
        · rw [List.mem_cons]; right
          obtain ⟨i, hi, hie⟩ := List.mem_map.mp hcm2
          refine List.mem_map.mpr ⟨i, hi, ?_⟩
          have : counter + (i + 1) = counter + 1 + i := by omega
          simpa [Function.comp, this] using hie
    · rw [slugLoop, if_neg hs]
      exact hs

theorem append_natDecimal_ne_base (base : String) (k : Nat) :
    base ++ "-" ++ natDecimal k ≠ base := by
  intro h
  have hdata : (base.data ++ ['-']) ++ (natDecimal k).data = base.data := congrArg String.data h
  have hlen := congrArg List.length hdata
  simp at hlen

theorem append_natDecimal_inj {base : String} {j k : Nat} (hj : j ≠ 0) (hk : k ≠ 0)
    (h : base ++ "-" ++ natDecimal j = base ++ "-" ++ natDecimal k) : j = k := by
  have hdata : (base.data ++ ['-']) ++ (natDecimal j).data
      = (base.data ++ ['-']) ++ (natDecimal k).data := by
    have := congrArg String.data h
    simpa using this
  have := append_cancelL _ hdata
  exact natDecimal_inj hj hk (string_ext this)

theorem slugLoop_result_not_mem (base : String) (existing : List String) :
    slugLoop base existing (existing.length + 1) 2 base ∉ existing := by
  apply slugLoop_not_mem
  by_contra hall
  push_neg at hall
  set L := base :: (List.range (existing.length + 1)).map
    (fun i => base ++ "-" ++ natDecimal (2 + i)) with hL
  have hnodup : L.Nodup := by
    rw [hL]
    refine List.nodup_cons.mpr ⟨?_, ?_⟩
    · intro hmem
      obtain ⟨i, _, hie⟩ := List.mem_map.mp hmem
      exact append_natDecimal_ne_base base (2 + i) hie
    · refine List.Nodup.map_on ?_ (List.nodup_range _)
      intro i hi j hj hije
      have := @append_natDecimal_inj base _ _ (by omega) (by omega) hije
      omega
  have hsub : ∀ c ∈ L, c ∈ existing := hall
  have hcard : L.length ≤ existing.length := by
    have h1 : L.toFinset.card = L.length := List.toFinset_card_of_nodup hnodup
    have h2 : L.toFinset ⊆ existing.toFinset := fun x hx =>
      List.mem_toFinset.mpr (hsub _ (List.mem_toFinset.mp hx))
    have h3 := Finset.card_le_card h2
    have h4 := List.toFinset_card_le existing
    omega
  have hlen : L.length = existing.length + 2 := by
    rw [hL]; simp
  omega

theorem slugLoop_shape (base : String) (existing : List String) :
    ∀ (fuel counter : Nat) (slug : String),
      slugLoop base existing fuel counter slug = slug ∨
        ∃ k, slugLoop base existing fuel counter slug = base ++ "-" ++ natDecimal k := by
  intro fuel
  induction fuel with
  | zero => intro counter slug; left; rfl
  | succ fuel ih =>
    intro counter slug
    by_cases hs : slug ∈ existing
    · rw [slugLoop, if_pos hs]
      rcases ih (counter + 1) (base ++ "-" ++ natDecimal counter) with h | ⟨k, hk⟩
      · right; exact ⟨counter, h⟩
      · right; exact ⟨k, hk⟩
    · left; rw [slugLoop, if_neg hs]

theorem slugBase_ne_empty (name : String) : slugBase name ≠ "" := by
  unfold slugBase
  by_cases hb : pyLower (pyStripChars ['-'] ⟨collapseRuns name.data⟩) = ""
  · rw [if_pos hb]; decide
  · rw [if_neg hb]; exact hb

theorem slugify_fst_ne_empty (name : String) (existing : List String) :
    (slugify name existing).1 ≠ "" := by
  unfold slugify
  rcases slugLoop_shape (slugBase name) existing (existing.length + 1) 2 (slugBase name)
    with h | ⟨k, hk⟩
  · simpa [h] using slugBase_ne_empty name
  · simp only [hk]
    intro he
    have hdata : ((slugBase name).data ++ ['-']) ++ (natDecimal k).data = [] :=
      congrArg String.data he
    have := congrArg List.length hdata
    simp at this

theorem slugify_fst_not_mem (name : String) (existing : List String) :
    (slugify name existing).1 ∉ existing :=
  slugLoop_result_not_mem (slugBase name) existing

theorem slugify_snd_eq (name : String) (existing : List String) :
    (slugify name existing).2 = (slugify name existing).1 :: existing := rfl

/-- **C10** — for every name and every already-assigned slug set, `slugify`
(which is total, hence terminating) returns a slug that was not in the set
before the call, and the updated set is exactly the previous set plus the
returned slug. -/
theorem claim_c10 (name : String) (existing : List String) :
    (slugify name existing).1 ∉ existing ∧
      (slugify name existing).2 = (slugify name existing).1 :: existing ∧
      ∀ x, x ∈ (slugify name existing).2 ↔ x = (slugify name existing).1 ∨ x ∈ existing := by
  refine ⟨slugify_fst_not_mem name existing, slugify_snd_eq name existing, ?_⟩
  intro x
  rw [slugify_snd_eq]
  exact List.mem_cons

theorem natDecimal_single {a : Nat} (ha : a ≠ 0) (h10 : a < 10) :
    natDecimal a = ⟨[digitChar10 a]⟩ := by
  rw [natDecimal_eq_digits]
  rw [if_neg ha]
  have hd : Nat.digits 10 a = [a] := by
    rw [Nat.digits_def' (by norm_num : (1 : Nat) < 10) (Nat.pos_of_ne_zero ha),
      Nat.mod_eq_of_lt h10, Nat.div_eq_of_lt h10, Nat.digits_zero]
  rw [hd]
  rfl

theorem pad2_mixed {a b : Nat} (ha : a ≠ 0) (h10a : a < 10) (h10b : ¬b < 10) :
    pad2 a ≠ pad2 b := by
  intro h
  have hb0 : b ≠ 0 := by omega
  rw [pad2, pad2, if_pos h10a, if_neg h10b] at h
  rw [natDecimal_single ha h10a] at h
  have hdata : ('0' :: [digitChar10 a]) = (natDecimal b).data := congrArg String.data h
  rw [natDecimal_eq_digits, if_neg hb0] at hdata
  have hrev : (Nat.digits 10 b).map digitChar10 = [digitChar10 a, '0'] := by
    have h2 := congrArg List.reverse hdata
    simp at h2
    exact h2.symm
  rcases hds : Nat.digits 10 b with _ | ⟨x, _ | ⟨y, t⟩⟩ <;> rw [hds] at hrev
  · simp at hrev
  · simp at hrev
  · simp only [List.map_cons, List.cons.injEq] at hrev
    obtain ⟨hx, hy, ht⟩ := hrev
    have ht0 : t = [] := List.map_eq_nil_iff.mp ht
    have hymem : y ∈ Nat.digits 10 b := by rw [hds]; simp
    have hy10 : y < 10 := Nat.digits_lt_base (by norm_num) hymem
    have hy0 : y = 0 := digitChar10_eq_zero y hy10 hy
    have hb2 : b = Nat.ofDigits 10 (Nat.digits 10 b) := (Nat.ofDigits_digits 10 b).symm
    rw [hds, ht0, hy0] at hb2
    have hxmem : x ∈ Nat.digits 10 b := by rw [hds]; simp
    have hx10 : x < 10 := Nat.digits_lt_base (by norm_num) hxmem
    simp [Nat.ofDigits] at hb2
    omega

theorem pad2_inj {a b : Nat} (ha : a ≠ 0) (hb : b ≠ 0) (h : pad2 a = pad2 b) : a = b := by
  by_cases h10a : a < 10 <;> by_cases h10b : b < 10
  · rw [pad2, pad2, if_pos h10a, if_pos h10b] at h
    have hdata : '0' :: (natDecimal a).data = '0' :: (natDecimal b).data :=
      congrArg String.data h
    exact natDecimal_inj ha hb (string_ext (List.cons.inj hdata).2)
  · exact absurd h (pad2_mixed ha h10a h10b)
  · exact absurd h.symm (pad2_mixed hb h10b h10a)
  · rw [pad2, pad2, if_neg h10a, if_neg h10b] at h
    exact natDecimal_inj ha hb h

theorem seqSlug_inj {a b : Nat} (ha : a ≠ 0) (hb : b ≠ 0) (h : seqSlug a = seqSlug b) : a = b := by
  have hdata : "store-".data ++ (pad2 a).data = "store-".data ++ (pad2 b).data :=
    congrArg String.data h
  exact pad2_inj ha hb (string_ext (append_cancelL _ hdata))

theorem seqSlug_ne_empty (n : Nat) : seqSlug n ≠ "" := by
  intro h
  have hdata : "store-".data ++ (pad2 n).data = [] := congrArg String.data h
  have := congrArg List.length hdata
  simp at this

theorem dictGet_snd (d : Dict) (k : String) : (dictGet d k).2 = d := rfl

/-! ### Structural lemmas about the two extractors -/

theorem clean_text_ne_some_empty (v : Option String) : clean_text v ≠ some "" := by
  cases v with
  | none => simp [clean_text]
  | some s =>
    show (if s = "" then none
      else if pyStrip (pyLStripChars ['⋅'] (pyStrip s)) = "" then none
      else some (pyStrip (pyLStripChars ['⋅'] (pyStrip s)))) ≠ some ""
    by_cases h1 : s = ""
    · simp [h1]
    · rw [if_neg h1]
      by_cases h2 : pyStrip (pyLStripChars ['⋅'] (pyStrip s)) = ""
      · simp [h2]
      · rw [if_neg h2]
        intro hc
        exact h2 (Option.some.inj hc)

theorem Scripts.parse_row_fields {images : Dict} {n : Nat} {row : List String}
    {s : Scripts.Store} (h : Scripts.parse_row images n row = some s) :
    s.slug = seqSlug (n + 1) ∧
    s.map_url = pyStrip (row.getD 1 "") ∧
    s.rating = (if 3 < row.length then coerce_float (pyStrip (row.getD 3 "")) else none) ∧
    s.review_count = (if 4 < row.length then coerce_int (row.getD 4 "") else none) ∧
    s.category = clean_text (if 5 < row.length then some (row.getD 5 "") else none) ∧
    s.address = clean_text (if 7 < row.length then some (row.getD 7 "") else none) ∧
    s.status = clean_text (if 8 < row.length then some (row.getD 8 "") else none) ∧
    s.hours_note = clean_text (if 9 < row.length then some (row.getD 9 "") else none) ∧
    s.website = (if strStartsWith (if 10 < row.length then pyStrip (row.getD 10 "") else "") "http"
      then some (if 10 < row.length then pyStrip (row.getD 10 "") else "") else none) ∧
    s.phone = clean_text (if 16 < row.length then some (row.getD 16 "") else none) ∧
    s.services = (row.drop 17).filterMap (fun chunk =>
      match clean_text (some chunk) with
      | some t => if t = "·" then none else some t
      | none => none) ∧
    s.image_url = (dictGet images (pyStrip (row.getD 1 ""))).1 := by
  unfold Scripts.parse_row at h
  by_cases h3 : row.length < 3
  · rw [if_pos h3] at h
    simp at h
  · rw [if_neg h3] at h
    by_cases hg : pyStrip (row.getD 1 "") ≠ "" ∧ pyStrip (row.getD 2 "") ≠ "" ∧
        strStartsWith (pyStrip (row.getD 1 "")) "http" = true
    · rw [if_pos hg] at h
      have hrec := Option.some.inj h
      subst hrec
      exact ⟨rfl, rfl, rfl, rfl, rfl, rfl, rfl, rfl, rfl, rfl, rfl, rfl⟩
    · rw [if_neg hg] at h
      simp at h

theorem Scripts.parse_stores_aux_mem {images : Dict} :
    ∀ (rows : List (List String)) (n : Nat) (s : Scripts.Store),
      s ∈ Scripts.parse_stores_aux images rows n →
      ∃ m row, Scripts.parse_row images m row = some s := by
  intro rows
  induction rows with
  | nil => intro n s h; simp [Scripts.parse_stores_aux] at h
  | cons row rest ih =>
    intro n s h
    rw [Scripts.parse_stores_aux] at h
    cases hp : Scripts.parse_row images n row with
    | none => rw [hp] at h; exact ih n s h
    | some s0 =>
      rw [hp] at h
      rcases List.mem_cons.mp h with he | hm
      · exact ⟨n, row, he ▸ hp⟩
      · exact ih (n + 1) s hm

theorem Scripts.parse_stores_aux_slugs (images : Dict) :
    ∀ (rows : List (List String)) (n : Nat),
      (Scripts.parse_stores_aux images rows n).map Scripts.Store.slug
        = (List.range (Scripts.parse_stores_aux images rows n).length).map
            (fun i => seqSlug (n + 1 + i)) := by
  intro rows
  induction rows with
  | nil => intro n; simp [Scripts.parse_stores_aux]
  | cons row rest ih =>
    intro n
    cases hp : Scripts.parse_row images n row with
    | none =>
      simp only [Scripts.parse_stores_aux, hp]
      exact ih n
    | some s =>
      simp only [Scripts.parse_stores_aux, hp, List.map_cons, List.length_cons]
      have hslug : s.slug = seqSlug (n + 1) := (Scripts.parse_row_fields hp).1
      rw [hslug, ih (n + 1), List.range_succ_eq_map, List.map_cons, List.map_map]
      refine congrArg₂ List.cons (congrArg seqSlug (by omega)) ?_
      refine List.map_congr_left ?_
      intro a _
      exact congrArg seqSlug (by omega)

theorem Scripts.parse_stores_slug_nodup (images : Dict) (rows : List (List String)) :
    ((Scripts.parse_stores images rows).map Scripts.Store.slug).Nodup := by
  rw [Scripts.parse_stores, Scripts.parse_stores_aux_slugs]
  refine List.Nodup.map_on ?_ (List.nodup_range _)
  intro i _ j _ hij
  have := seqSlug_inj (by omega) (by omega) hij
  omega

theorem Root.mkStore_slug (images : Dict) (row : Root.Row) (slug : String) :
    (Root.mkStore images row slug).slug = slug := rfl

theorem Root.load_stores_aux_snd (d : Dict) :
    ∀ (rows : List Root.Row) (seen : List String),
      (Root.load_stores_aux d rows seen).2 = d := by
  intro rows
  induction rows with
  | nil => intro seen; rfl
  | cons row rest ih =>
    intro seen
    by_cases hn : pyStrip (row "qBF1Pd") = ""
    · simp only [Root.load_stores_aux, if_pos hn]
      exact ih seen
    · simp only [Root.load_stores_aux, if_neg hn]
      exact ih ((slugify (pyStrip (row "qBF1Pd")) seen).2)

theorem Root.load_stores_aux_mem {d : Dict} :
    ∀ (rows : List Root.Row) (seen : List String) (s : Root.Store),
      s ∈ (Root.load_stores_aux d rows seen).1 →
      ∃ row slug, s = Root.mkStore d row slug := by
  intro rows
  induction rows with
  | nil => intro seen s h; simp [Root.load_stores_aux] at h
  | cons row rest ih =>
    intro seen s h
    by_cases hn : pyStrip (row "qBF1Pd") = ""
    · simp only [Root.load_stores_aux, if_pos hn] at h
      exact ih seen s h
    · simp only [Root.load_stores_aux, if_neg hn] at h
      rcases List.mem_cons.mp h with he | hm
      · exact ⟨row, (slugify (pyStrip (row "qBF1Pd")) seen).1, he⟩
      · exact ih ((slugify (pyStrip (row "qBF1Pd")) seen).2) s hm

theorem Root.load_stores_aux_slug_inv (d : Dict) :
    ∀ (rows : List Root.Row) (seen : List String),
      ((Root.load_stores_aux d rows seen).1.map Root.Store.slug).Nodup ∧
      (∀ x ∈ (Root.load_stores_aux d rows seen).1.map Root.Store.slug, x ∉ seen) ∧
      (∀ s ∈ (Root.load_stores_aux d rows seen).1, s.slug ≠ "") := by
  intro rows
  induction rows with
  | nil => intro seen; simp [Root.load_stores_aux]
  | cons row rest ih =>
    intro seen
    by_cases hn : pyStrip (row "qBF1Pd") = ""
    · simpa only [Root.load_stores_aux, if_pos hn] using ih seen
    · obtain ⟨ih1, ih2, ih3⟩ := ih ((slugify (pyStrip (row "qBF1Pd")) seen).2)
      have hstep : (Root.load_stores_aux d (row :: rest) seen).1
          = Root.mkStore d row (slugify (pyStrip (row "qBF1Pd")) seen).1
            :: (Root.load_stores_aux d rest ((slugify (pyStrip (row "qBF1Pd")) seen).2)).1 := by
        simp only [Root.load_stores_aux, if_neg hn, dictGet_snd]
      rw [hstep]
      refine ⟨?_, ?_, ?_⟩
      · rw [List.map_cons, List.nodup_cons]
        refine ⟨?_, ih1⟩
        rw [Root.mkStore_slug]
        intro hmem
        have h2 := ih2 _ hmem
        rw [slugify_snd_eq] at h2
        exact h2 (by simp)
      · intro x hx
        rw [List.map_cons] at hx
        rcases List.mem_cons.mp hx with hxe | hxm
        · rw [hxe, Root.mkStore_slug]
          exact slugify_fst_not_mem _ seen
        · intro hxseen
          have h2 := ih2 x hxm
          rw [slugify_snd_eq] at h2
          exact h2 (by simp [hxseen])
      · intro s hs
        rcases List.mem_cons.mp hs with hse | hsm
        · rw [hse, Root.mkStore_slug]
          exact slugify_fst_ne_empty _ seen
        · exact ih3 s hsm

/-! ### Claims C1, C2, C3, C5, C6, C7 -/

/-- **C1** — in both slug policies, the slugs assigned within one run are
pairwise distinct and every assigned slug is a non-empty string. -/
theorem claim_c1 (images : Dict) (rowsA : List Root.Row) (rowsB : List (List String)) :
    (((Root.load_stores images rowsA).1.map Root.Store.slug).Nodup ∧
      ∀ s ∈ (Root.load_stores images rowsA).1, s.slug ≠ "") ∧
    (((Scripts.parse_stores images rowsB).map Scripts.Store.slug).Nodup ∧
      ∀ s ∈ Scripts.parse_stores images rowsB, s.slug ≠ "") := by
  refine ⟨⟨?_, ?_⟩, ?_, ?_⟩
  · exact (Root.load_stores_aux_slug_inv images rowsA []).1
  · exact (Root.load_stores_aux_slug_inv images rowsA []).2.2
  · exact Scripts.parse_stores_slug_nodup images rowsB
  · intro s hs
    obtain ⟨m, _, hp⟩ := Scripts.parse_stores_aux_mem rowsB 0 s hs
    rw [(Scripts.parse_row_fields hp).1]
    exact seqSlug_ne_empty (m + 1)

/-- Witness for C1 at concrete inputs. -/
theorem claim_c1_witness :
    ((Root.load_stores imagesA1 [rowA1]).1.map Root.Store.slug).Nodup ∧
      storeA1.slug ≠ "" ∧ storeB1.slug ≠ "" := by
  have h1 := claim_c1 imagesA1 [rowA1] []
  have h2 := claim_c1 [] [] [rowB1]
  exact ⟨h1.1.1, h1.1.2 storeA1 (by decide), h2.2.2 storeB1 (by decide)⟩

/-- **C2** — counterexample: in the root variant, a category cell that
cleans to the empty string is stored as the empty string `some ""`, not as
an absent value. -/
theorem claim_c2_counterexample :
    ((Root.load_stores [] [rowC2]).1.map Root.Store.category) = [some ""] ∧
      some "" ≠ (none : Option String) :=
  ⟨by decide, by decide⟩

/-- **C2** (amended) — `clean_text` never yields an empty string, so in the
scripts variant every cleaned optional field is `none` or a non-empty
string; in the root variant only `website` and `phone` coalesce the empty
string to an absent value (the other cleaned fields keep `some ""`). -/
theorem claim_c2_amended :
    (∀ v, clean_text v ≠ some "") ∧
    (∀ (images : Dict) (rows : List (List String)), ∀ s ∈ Scripts.parse_stores images rows,
      s.category ≠ some "" ∧ s.address ≠ some "" ∧ s.status ≠ some "" ∧
        s.hours_note ≠ some "" ∧ s.phone ≠ some "") ∧
    (∀ (images : Dict) (rows : List Root.Row), ∀ s ∈ (Root.load_stores images rows).1,
      s.website ≠ some "" ∧ s.phone ≠ some "") := by
  refine ⟨clean_text_ne_some_empty, ?_, ?_⟩
  · intro images rows s hs
    obtain ⟨_, _, hp⟩ := Scripts.parse_stores_aux_mem rows 0 s hs
    obtain ⟨_, _, _, _, hcat, haddr, hstat, hhn, _, hph, _, _⟩ := Scripts.parse_row_fields hp
    exact ⟨hcat ▸ clean_text_ne_some_empty _, haddr ▸ clean_text_ne_some_empty _,
      hstat ▸ clean_text_ne_some_empty _, hhn ▸ clean_text_ne_some_empty _,
      hph ▸ clean_text_ne_some_empty _⟩
  · intro images rows s hs
    obtain ⟨row, slug, hse⟩ := Root.load_stores_aux_mem rows [] s hs
    subst hse
    constructor
    · show (if pyStrip (row "lcr4fd href") = "" then none
        else some (pyStrip (row "lcr4fd href"))) ≠ some ""
      by_cases hw : pyStrip (row "lcr4fd href") = ""
      · simp [hw]
      · rw [if_neg hw]
        intro hc
        exact hw (Option.some.inj hc)
    · show (if clean_value (row "UsdlK") = "" then none
        else some (clean_value (row "UsdlK"))) ≠ some ""
      by_cases hw : clean_value (row "UsdlK") = ""
      · simp [hw]
      · rw [if_neg hw]
        intro hc
        exact hw (Option.some.inj hc)

/-- Witness for the amended C2 at concrete inputs. -/
theorem claim_c2_witness :
    storeB1.category ≠ some "" ∧ storeB1.address ≠ some "" ∧ storeB1.status ≠ some "" ∧
      storeB1.hours_note ≠ some "" ∧ storeB1.phone ≠ some "" ∧
      storeA1.website ≠ some "" ∧ storeA1.phone ≠ some "" := by
  have h2 := claim_c2_amended.2.1 [] [rowB1] storeB1 (by decide)
  have h3 := claim_c2_amended.2.2 imagesA1 [rowA1] storeA1 (by decide)
  exact ⟨h2.1, h2.2.1, h2.2.2.1, h2.2.2.2.1, h2.2.2.2.2, h3.1, h3.2⟩

/-- **C3** — counterexample: the root variant never parses the rating
numerically; an unparsable raw rating (`"N/A"`) is stored as the string
`some "N/A"` instead of being absent. -/
theorem claim_c3_counterexample :
    ((Root.load_stores [] [rowC3]).1.map Root.Store.rating) = [some "N/A"] ∧
      some "N/A" ≠ (none : Option String) :=
  ⟨by decide, by decide⟩

/-- **C3** (amended) — the root variant performs no numeric parsing: its
rating and review-count fields always hold the cleaned raw string and are
never absent.  In the scripts variant the review count equals the integer
parse of the raw value after every non-digit character is discarded, and
is absent exactly when no digit remains; the scripts rating comes from
Python `float()` — binary64 floating-point behaviour about which this
embedding asserts nothing. -/
theorem claim_c3_amended :
    (∀ (images : Dict) (rows : List Root.Row), ∀ s ∈ (Root.load_stores images rows).1,
      s.rating.isSome = true ∧ s.review_count.isSome = true) ∧
    (∀ (images : Dict) (n : Nat) (row : List String) (s : Scripts.Store),
      Scripts.parse_row images n row = some s →
        s.review_count = (if 4 < row.length then coerce_int (row.getD 4 "") else none)) ∧
    (∀ v : String, coerce_int v = none ↔ v.data.filter Char.isDigit = []) ∧
    (∀ v : String, v.data.filter Char.isDigit ≠ [] →
      coerce_int v = some (digitsVal (v.data.filter Char.isDigit))) := by
  refine ⟨?_, ?_, ?_, ?_⟩
  · intro images rows s hs
    obtain ⟨row, slug, hse⟩ := Root.load_stores_aux_mem rows [] s hs
    subst hse
    exact ⟨rfl, rfl⟩
  · intro images n row s hp
    exact (Scripts.parse_row_fields hp).2.2.2.1
  · intro v
    unfold coerce_int
    by_cases hd : v.data.filter Char.isDigit = [] <;> simp [hd]
  · intro v hd
    unfold coerce_int
    simp [hd]

/-- Witness for the amended C3 at concrete rows. -/
theorem claim_c3_witness :
    (storeA1.rating.isSome = true ∧ storeA1.review_count.isSome = true) ∧
      storeB1.review_count = (if 4 < rowB1.length then coerce_int (rowB1.getD 4 "") else none) :=
  ⟨claim_c3_amended.1 imagesA1 [rowA1] storeA1 (by decide),
    claim_c3_amended.2.1 [] 0 rowB1 storeB1 (by decide)⟩

/-- **C5** — counterexample: the root variant keeps any non-empty website
value without checking for a URL scheme. -/
theorem claim_c5_counterexample :
    ((Root.load_stores [] [rowC5]).1.map Root.Store.website) = [some "example.com"] ∧
      strStartsWith "example.com" "http" = false :=
  ⟨by decide, by decide⟩

/-- **C5** (amended) — in the scripts variant the website field holds the
raw (stripped) value iff that value starts with `http`, and every accepted
website therefore starts with `http`; the root variant keeps any non-empty
value. -/
theorem claim_c5_amended :
    ∀ (images : Dict) (n : Nat) (row : List String) (s : Scripts.Store),
      Scripts.parse_row images n row = some s →
        s.website = (if strStartsWith (if 10 < row.length then pyStrip (row.getD 10 "") else "") "http"
          then some (if 10 < row.length then pyStrip (row.getD 10 "") else "") else none) ∧
        ∀ w, s.website = some w → strStartsWith w "http" = true := by
  intro images n row s hp
  obtain ⟨_, _, _, _, _, _, _, _, hw, _⟩ := Scripts.parse_row_fields hp
  refine ⟨hw, ?_⟩
  intro w hww
  rw [hw] at hww
  by_cases hc : strStartsWith (if 10 < row.length then pyStrip (row.getD 10 "") else "") "http" = true
  · rw [if_pos hc] at hww
    exact (Option.some.inj hww) ▸ hc
  · rw [if_neg hc] at hww
    simp at hww

/-- Witness for the amended C5 at a concrete row. -/
theorem claim_c5_witness : strStartsWith "https://w" "http" = true :=
  (claim_c5_amended [] 0 rowB1 storeB1 (by decide)).2 "https://w" (by decide)

/-- **C6** — join correctness: in both variants each record's `image_url`
is exactly the mapping's value at the record's `map_url` (absent when the
key is missing), and the mapping is never mutated — each lookup returns it
unchanged, and the extractor hands it back as it received it. -/
theorem claim_c6 (images : Dict) (rowsA : List Root.Row) (rowsB : List (List String)) :
    (∀ s ∈ (Root.load_stores images rowsA).1, s.image_url = (dictGet images s.map_url).1) ∧
    (Root.load_stores images rowsA).2 = images ∧
    (∀ s ∈ Scripts.parse_stores images rowsB, s.image_url = (dictGet images s.map_url).1) ∧
    (∀ k, (dictGet images k).2 = images) := by
  refine ⟨?_, Root.load_stores_aux_snd images rowsA [], ?_, fun k => rfl⟩
  · intro s hs
    obtain ⟨row, slug, hse⟩ := Root.load_stores_aux_mem rowsA [] s hs
    subst hse
    rfl
  · intro s hs
    obtain ⟨m, row, hp⟩ := Scripts.parse_stores_aux_mem rowsB 0 s hs
    obtain ⟨_, hmu, _, _, _, _, _, _, _, _, _, him⟩ := Scripts.parse_row_fields hp
    rw [him, hmu]

/-- Witness for C6 at concrete inputs (one hit, one miss). -/
theorem claim_c6_witness :
    storeA1.image_url = (dictGet imagesA1 storeA1.map_url).1 ∧
      storeB1.image_url = (dictGet [] storeB1.map_url).1 := by
  have h1 := claim_c6 imagesA1 [rowA1] []
  have h2 := claim_c6 [] [] [rowB1]
  exact ⟨h1.1 storeA1 (by decide), h2.2.2.1 storeB1 (by decide)⟩

/-- **C7** — counterexample: duplicate service cells survive (no
de-duplication in either variant), and a token consisting of two separator
glyphs survives the scripts variant's cleaning. -/
theorem claim_c7_counterexample :
    (Scripts.parse_stores [] [rowB1]).map Scripts.Store.services = [["x", "x", "··"]] ∧
      ¬ (["x", "x", "··"] : List String).Nodup ∧
      ("··" ≠ "" ∧ ∀ c ∈ "··".data, c = '·' ∨ c = '⋅') :=
  ⟨by decide, by decide, by decide⟩

/-- **C7** (amended) — the services/features list preserves the input
order (it is the in-order `filterMap` of the tail cells); tokens that clean
to empty are dropped, the scripts variant additionally drops the exact
token `·` (but keeps longer separator-only tokens), and the root variant's
cleaning removes every separator glyph from the kept tokens; duplicates are
not removed. -/
theorem claim_c7_amended :
    (∀ (images : Dict) (n : Nat) (row : List String) (s : Scripts.Store),
      Scripts.parse_row images n row = some s →
        s.services = (row.drop 17).filterMap (fun chunk =>
          match clean_text (some chunk) with
          | some t => if t = "·" then none else some t
          | none => none) ∧
        ∀ t ∈ s.services, t ≠ "" ∧ t ≠ "·") ∧
    (∀ (images : Dict) (rows : List Root.Row), ∀ s ∈ (Root.load_stores images rows).1,
      (∃ row : Root.Row, s.features = ["ah5Ghc", "ah5Ghc (2)"].filterMap (fun k =>
        if clean_value (row k) = "" then none else some (clean_value (row k)))) ∧
      ∀ t ∈ s.features, t ≠ "" ∧ ∀ c ∈ t.data, notSep c = true) := by
  constructor
  · intro images n row s hp
    have hsv := (Scripts.parse_row_fields hp).2.2.2.2.2.2.2.2.2.2.1
    refine ⟨hsv, ?_⟩
    intro t ht
    rw [hsv] at ht
    obtain ⟨chunk, _, hf⟩ := List.mem_filterMap.mp ht
    cases hct : clean_text (some chunk) with
    | none => rw [hct] at hf; simp at hf
    | some t0 =>
      rw [hct] at hf
      by_cases ht0 : t0 = "·"
      · simp [ht0] at hf
      · simp only [ht0, if_neg, ite_false] at hf
        have hte : t0 = t := by simpa using hf
        subst hte
        refine ⟨?_, ht0⟩
        intro hte
        exact clean_text_ne_some_empty (some chunk) (hte ▸ hct)
  · intro images rows s hs
    obtain ⟨row, slug, hse⟩ := Root.load_stores_aux_mem rows [] s hs
    subst hse
    refine ⟨⟨row, rfl⟩, ?_⟩
    intro t ht
    obtain ⟨k, _, hf⟩ := List.mem_filterMap.mp ht
    by_cases hv : clean_value (row k) = ""
    · rw [if_pos hv] at hf
      simp at hf
    · rw [if_neg hv] at hf
      have hte : clean_value (row k) = t := Option.some.inj hf
      subst hte
      refine ⟨hv, ?_⟩
      intro c hc
      have hc2 : c ∈ (row k).data.filter notSep := stripEnds_mem hc
      exact List.of_mem_filter hc2

/-- Witness for the amended C7 at concrete inputs. -/
theorem claim_c7_witness :
    storeB1.services = (rowB1.drop 17).filterMap (fun chunk =>
      match clean_text (some chunk) with
      | some t => if t = "·" then none else some t
      | none => none) ∧
    ("x" ≠ "" ∧ "x" ≠ "·") ∧ "f1" ≠ "" := by
  have h1 := claim_c7_amended.1 [] 0 rowB1 storeB1 (by decide)
  have h2 := claim_c7_amended.2 imagesA1 [rowA1] storeA1 (by decide)
  exact ⟨h1.1, h1.2 "x" (by decide), (h2.2 "f1" (by decide)).1⟩

theorem containsCL_correct {h n : List Char} : containsCL h n = true ↔ n <:+: h := by
  induction h with
  | nil =>
    simp only [containsCL, List.isEmpty_iff]
    constructor
    · intro he; simp [he]
    · intro hi; exact List.eq_nil_of_infix_nil hi
  | cons c t ih =>
    simp only [containsCL, Bool.or_eq_true, List.isPrefixOf_iff_prefix]
    constructor
    · rintro (hp | hc)
      · exact hp.isInfix
      · exact (ih.mp hc).trans (List.infix_cons (List.infix_refl t))
    · intro hi
      rcases List.infix_cons_iff.mp hi with hp | hs
      · exact Or.inl hp
      · exact Or.inr (ih.mpr hs)

theorem sContains_intro {h n : String} (hx : n.data <:+: h.data) : sContains h n = true :=
  containsCL_correct.mpr hx

theorem sContains_trans {a b c : String} (h1 : sContains a b = true)
    (h2 : sContains b c = true) : sContains a c = true :=
  containsCL_correct.mpr ((containsCL_correct.mp h2).trans (containsCL_correct.mp h1))

theorem sContains_self (x : String) : sContains x x = true :=
  sContains_intro (List.infix_refl _)

theorem sContains_middle (a x b : String) : sContains (a ++ x ++ b) x = true := by
  refine sContains_intro ⟨a.data, b.data, ?_⟩
  show a.data ++ x.data ++ b.data = ((a ++ x) ++ b).data
  rfl

theorem string_join_data : ∀ l : List String, (String.join l).data = (l.map String.data).flatten := by
  have haux : ∀ (l : List String) (acc : String),
      (l.foldl (· ++ ·) acc).data = acc.data ++ (l.map String.data).flatten := by
    intro l
    induction l with
    | nil => intro acc; simp
    | cons x xs ih =>
      intro acc
      simp only [List.foldl_cons, List.map_cons, List.flatten_cons]
      rw [ih (acc ++ x)]
      show (acc.data ++ x.data) ++ _ = _
      rw [List.append_assoc]
  intro l
  show (l.foldl (· ++ ·) "").data = (l.map String.data).flatten
  rw [haux l ""]
  rfl

theorem sContains_join_mem {l : List String} {x : String} (hx : x ∈ l) :
    sContains (String.join l) x = true := by
  refine sContains_intro ?_
  rw [string_join_data]
  have hmem : x.data ∈ l.map String.data := List.mem_map_of_mem String.data hx
  exact List.infix_of_mem_flatten hmem

theorem join_ne_empty_of_mem {l : List String} {x : String} (hx : x ∈ l) (hne : x ≠ "") :
    String.join l ≠ "" := by
  intro hj
  have h1 := sContains_join_mem hx
  rw [hj] at h1
  have h2 := containsCL_correct.mp h1
  have h3 := List.eq_nil_of_infix_nil h2
  exact hne (string_ext h3)

theorem append_ne_empty_of_left {a : String} (b : String) (ha : a ≠ "") : a ++ b ≠ "" := by
  intro h
  have hd : a.data ++ b.data = [] := congrArg String.data h
  have := (List.append_eq_nil.mp hd).1
  exact ha (string_ext this)

theorem page_contains_part {s : Root.Store} {x : String} (hx : x ∈ Root.pageParts s) :
    sContains (Root.render_store_page s) x = true :=
  sContains_join_mem hx

/-- **C8** — counterexample: for an accepted record whose name ends in a
vertical bar and whose address is empty, the rendered detail page contains
neither the HTML-escaped name (only the bar-stripped display name is
rendered) nor the repository's documented address fallback text
`地址未提供` (the detail page simply omits the address item; the fallback
exists only on the index page). -/
theorem claim_c8_counterexample :
    ((Root.load_stores [] [rowC8]).1.map (fun s =>
      (sContains (Root.render_store_page s) (escape s.name),
        sContains (Root.render_store_page s) "地址未提供"))) = [(false, false)] := by
  decide

theorem escape_append (a b : String) : escape (a ++ b) = escape a ++ escape b := by
  apply string_ext
  show (String.join ((a.data ++ b.data).map escChar)).data
      = (String.join (a.data.map escChar)).data ++ (String.join (b.data.map escChar)).data
  rw [string_join_data, string_join_data, string_join_data, List.map_append, List.map_append,
    List.flatten_append]

theorem sContains_left (x b : String) : sContains (x ++ b) x = true :=
  sContains_intro ⟨[], b.data, rfl⟩

theorem intercalate_go_ex :
    ∀ (as : List String) (acc sep : String), ∃ r, String.intercalate.go acc sep as = acc ++ r := by
  intro as
  induction as with
  | nil =>
    intro acc sep
    refine ⟨"", ?_⟩
    show acc = acc ++ ""
    apply string_ext
    simp
  | cons a as ih =>
    intro acc sep
    obtain ⟨r, hr⟩ := ih (acc ++ sep ++ a) sep
    refine ⟨sep ++ (a ++ r), ?_⟩
    show String.intercalate.go (acc ++ sep ++ a) sep as = acc ++ (sep ++ (a ++ r))
    rw [hr, String.append_assoc, String.append_assoc]

theorem intercalate_cons (sep a : String) (as : List String) :
    ∃ r, String.intercalate sep (a :: as) = a ++ r :=
  intercalate_go_ex as a sep

theorem truthy_getD_ne_empty {o : Option String} (h : truthy o = true) : o.getD "" ≠ "" := by
  cases o with
  | none => simp [truthy] at h
  | some v =>
    simp [truthy] at h
    simpa using h

theorem spage_contains_part {s : Scripts.Store} {x : String} (hx : x ∈ Scripts.pageParts s) :
    sContains (Scripts.render_store s) x = true :=
  sContains_join_mem hx

/-- **C8** (amended) — in the detail page of the root variant, every truthy
optional display field appears HTML-escaped, the name appears as its
escaped display form (trailing vertical bars stripped), the map link
appears escaped, and the rating line shows the escaped rating or its
`尚無評分` fallback (other absent fields render nothing there).  In the
detail page of the scripts variant, the escaped name and map link always
appear; a present review count, phone, website, category and every service
appear; the address, status, hours and image slots show the escaped value
or their documented fallbacks; an absent phone shows `未提供`, empty
services show the fallback item, and an absent rating shows `--` (a
present rating appears only binary64-formatted, about which nothing is
asserted). -/
theorem claim_c8_amended :
    (∀ s : Root.Store,
      sContains (Root.render_store_page s) (escape (Root.displayName s)) = true ∧
      sContains (Root.render_store_page s) (escape (orFallback s.rating "尚無評分")) = true ∧
      (truthy s.review_count = true →
        sContains (Root.render_store_page s) (escape (s.review_count.getD "")) = true) ∧
      (truthy s.category = true →
        sContains (Root.render_store_page s) (escape (s.category.getD "")) = true) ∧
      (truthy s.address = true →
        sContains (Root.render_store_page s) (escape (s.address.getD "")) = true) ∧
      (truthy s.phone = true →
        sContains (Root.render_store_page s) (escape (s.phone.getD "")) = true) ∧
      (truthy s.status = true →
        sContains (Root.render_store_page s) (escape (s.status.getD "")) = true) ∧
      (truthy s.hours = true →
        sContains (Root.render_store_page s) (escape (s.hours.getD "")) = true) ∧
      sContains (Root.render_store_page s) (escape s.map_url) = true ∧
      (truthy s.website = true →
        sContains (Root.render_store_page s) (escape (s.website.getD "")) = true) ∧
      (truthy s.image_url = true →
        sContains (Root.render_store_page s) (escape (s.image_url.getD "")) = true) ∧
      (∀ f ∈ s.features, sContains (Root.render_store_page s) (escape f) = true)) ∧
    (∀ s : Scripts.Store,
      sContains (Scripts.render_store s) (escape s.name) = true ∧
      sContains (Scripts.render_store s) (escape s.map_url) = true ∧
      (∀ n, s.review_count = some n →
        sContains (Scripts.render_store s) (natDecimal n) = true) ∧
      sContains (Scripts.render_store s) (escape (orFallback s.address "地址未提供")) = true ∧
      sContains (Scripts.render_store s) (escape (orFallback s.status "營業狀態未提供")) = true ∧
      sContains (Scripts.render_store s)
        (escape (orFallback s.hours_note "歡迎電話詢問營業時間")) = true ∧
      (truthy s.phone = true →
        sContains (Scripts.render_store s) (escape (s.phone.getD "")) = true) ∧
      (truthy s.phone = false → sContains (Scripts.render_store s) "未提供" = true) ∧
      (truthy s.website = true →
        sContains (Scripts.render_store s) (escape (s.website.getD "")) = true) ∧
      sContains (Scripts.render_store s)
        (escape (orFallback s.image_url
          "https://via.placeholder.com/960x540?text=Pet+Grooming")) = true ∧
      (∀ t ∈ s.services, sContains (Scripts.render_store s) (escape t) = true) ∧
      (s.services = [] → sContains (Scripts.render_store s) "歡迎電話洽詢服務內容" = true) ∧
      (s.rating = none → sContains (Scripts.render_store s) "--" = true) ∧
      (truthy s.category = true →
        sContains (Scripts.render_store s) (escape (s.category.getD "")) = true)) := by
  constructor
  · intro s
    refine ⟨?_, ?_, ?_, ?_, ?_, ?_, ?_, ?_, ?_, ?_, ?_, ?_⟩
    · exact page_contains_part (by simp [Root.pageParts])
    · exact page_contains_part (by simp [Root.pageParts])
    · intro h
      have hpart : ("<span>(" ++ escape (s.review_count.getD "") ++ " 則評論)</span>")
          ∈ Root.pageParts s := by simp [Root.pageParts, h]
      exact sContains_trans (page_contains_part hpart) (sContains_middle _ _ _)
    · intro h
      have hpart : ("<span>" ++ escape (s.category.getD "") ++ "</span>")
          ∈ Root.pageParts s := by simp [Root.pageParts, h]
      exact sContains_trans (page_contains_part hpart) (sContains_middle _ _ _)
    · intro h
      have hitem : ("<li class=\x27info-item\x27><strong>地址</strong><br>"
          ++ escape (s.address.getD "") ++ "</li>") ∈ Root.metaItems s := by
        simp [Root.metaItems, h]
      have hpart : String.join (Root.metaItems s) ∈ Root.pageParts s := by
        simp [Root.pageParts]
      exact sContains_trans (page_contains_part hpart)
        (sContains_trans (sContains_join_mem hitem) (sContains_middle _ _ _))
    · intro h
      have hitem : ("<li class=\x27info-item\x27><strong>電話</strong><br>"
          ++ escape (s.phone.getD "") ++ "</li>") ∈ Root.metaItems s := by
        simp [Root.metaItems, h]
      have hpart : String.join (Root.metaItems s) ∈ Root.pageParts s := by
        simp [Root.pageParts]
      exact sContains_trans (page_contains_part hpart)
        (sContains_trans (sContains_join_mem hitem) (sContains_middle _ _ _))
    · intro h
      have hitem : ("<li class=\x27info-item\x27><strong>營業狀態</strong><br>"
          ++ escape (s.status.getD "") ++ "</li>") ∈ Root.metaItems s := by
        simp [Root.metaItems, h]
      have hpart : String.join (Root.metaItems s) ∈ Root.pageParts s := by
        simp [Root.pageParts]
      exact sContains_trans (page_contains_part hpart)
        (sContains_trans (sContains_join_mem hitem) (sContains_middle _ _ _))
    · intro h
      have hitem : ("<li class=\x27info-item\x27><strong>營業時間</strong><br>"
          ++ escape (s.hours.getD "") ++ "</li>") ∈ Root.metaItems s := by
        simp [Root.metaItems, h]
      have hpart : String.join (Root.metaItems s) ∈ Root.pageParts s := by
        simp [Root.pageParts]
      exact sContains_trans (page_contains_part hpart)
        (sContains_trans (sContains_join_mem hitem) (sContains_middle _ _ _))
    · exact page_contains_part (by simp [Root.pageParts])
    · intro h
      have hpart : ("<a class=\x27button\x27 href=\x27" ++ escape (s.website.getD "")
          ++ "\x27 target=\x27_blank\x27 rel=\x27noreferrer\x27>官方網站</a>")
          ∈ Root.pageParts s := by simp [Root.pageParts, h]
      exact sContains_trans (page_contains_part hpart) (sContains_middle _ _ _)
    · intro h
      have hpart : Root.imageBlock s ∈ Root.pageParts s := by simp [Root.pageParts]
      have hib : sContains (Root.imageBlock s) (escape (s.image_url.getD "")) = true := by
        rw [Root.imageBlock, if_pos h]
        exact sContains_middle _ _ _
      exact sContains_trans (page_contains_part hpart) hib
    · intro f hf
      have hbadge : ("<span class=\x27badge\x27>" ++ escape f ++ "</span>")
          ∈ s.features.map (fun f => "<span class=\x27badge\x27>" ++ escape f ++ "</span>") :=
        List.mem_map_of_mem _ hf
      have hfh : sContains (Root.featuresHtml s) (escape f) = true :=
        sContains_trans (sContains_join_mem hbadge) (sContains_middle _ _ _)
      have hbne : ("<span class=\x27badge\x27>" ++ escape f ++ "</span>") ≠ "" :=
        append_ne_empty_of_left "</span>" (append_ne_empty_of_left (escape f) (by decide))
      have hne : Root.featuresHtml s ≠ "" := join_ne_empty_of_mem hbadge hbne
      have hpart : (if Root.featuresHtml s = "" then ""
          else "<div style=\x27margin-top:12px;\x27>" ++ Root.featuresHtml s ++ "</div>")
          ∈ Root.pageParts s := by simp [Root.pageParts]
      rw [if_neg hne] at hpart
      exact sContains_trans
        (sContains_trans (page_contains_part hpart) (sContains_middle _ _ _)) hfh
  · intro s
    refine ⟨?_, ?_, ?_, ?_, ?_, ?_, ?_, ?_, ?_, ?_, ?_, ?_, ?_, ?_⟩
    · exact spage_contains_part (by simp [Scripts.pageParts])
    · exact spage_contains_part (by simp [Scripts.pageParts])
    · intro n h
      have hpart : Scripts.reviewsText s ∈ Scripts.pageParts s := by
        simp [Scripts.pageParts]
      have hv : Scripts.reviewsText s = "（" ++ natDecimal n ++ " 則評論）" := by
        simp [Scripts.reviewsText, h]
      rw [hv] at hpart
      exact sContains_trans (spage_contains_part hpart) (sContains_middle _ _ _)
    · exact spage_contains_part (by simp [Scripts.pageParts])
    · exact spage_contains_part (by simp [Scripts.pageParts])
    · exact spage_contains_part (by simp [Scripts.pageParts])
    · intro h
      have hpart : (if truthy s.phone then escape (s.phone.getD "") else "未提供")
          ∈ Scripts.pageParts s := by simp [Scripts.pageParts]
      rw [if_pos h] at hpart
      exact spage_contains_part hpart
    · intro h
      have hpart : (if truthy s.phone then escape (s.phone.getD "") else "未提供")
          ∈ Scripts.pageParts s := by simp [Scripts.pageParts]
      rw [if_neg (by simp [h])] at hpart
      exact spage_contains_part hpart
    · intro h
      have hpart : Scripts.websiteLink s ∈ Scripts.pageParts s := by
        simp [Scripts.pageParts]
      have hv : sContains (Scripts.websiteLink s) (escape (s.website.getD "")) = true := by
        rw [Scripts.websiteLink, if_pos h]
        exact sContains_middle _ _ _
      exact sContains_trans (spage_contains_part hpart) hv
    · exact spage_contains_part (by simp [Scripts.pageParts])
    · intro t ht
      have hli : ("<li>" ++ escape t ++ "</li>")
          ∈ s.services.map (fun i => "<li>" ++ escape i ++ "</li>") :=
        List.mem_map_of_mem _ ht
      have hsj : sContains
          (String.join (s.services.map (fun i => "<li>" ++ escape i ++ "</li>")))
          (escape t) = true :=
        sContains_trans (sContains_join_mem hli) (sContains_middle _ _ _)
      have hne : String.join (s.services.map (fun i => "<li>" ++ escape i ++ "</li>")) ≠ "" :=
        join_ne_empty_of_mem hli
          (append_ne_empty_of_left "</li>" (append_ne_empty_of_left (escape t) (by decide)))
      have hpart : Scripts.servicesHtml s ∈ Scripts.pageParts s := by
        simp [Scripts.pageParts]
      have hv : Scripts.servicesHtml s
          = String.join (s.services.map (fun i => "<li>" ++ escape i ++ "</li>")) := by
        rw [Scripts.servicesHtml, if_neg hne]
      rw [hv] at hpart
      exact sContains_trans (spage_contains_part hpart) hsj
    · intro h
      have hpart : Scripts.servicesHtml s ∈ Scripts.pageParts s := by
        simp [Scripts.pageParts]
      have hv : Scripts.servicesHtml s = "<li>歡迎電話洽詢服務內容</li>" := by
        rw [Scripts.servicesHtml, h]
        rfl
      rw [hv] at hpart
      exact sContains_trans (spage_contains_part hpart) (by decide)
    · intro h
      have hpart : Scripts.ratingText s ∈ Scripts.pageParts s := by
        simp [Scripts.pageParts]
      have hv : Scripts.ratingText s = "--" := by
        simp [Scripts.ratingText, h]
      rw [hv] at hpart
      exact spage_contains_part hpart
    · intro h
      have hcat : s.category.getD "" ≠ "" := truthy_getD_ne_empty h
      have hpieces : Scripts.badgePieces s = s.category.getD ""
          :: ((if truthy s.status then [s.status.getD ""] else [])
            ++ (if truthy s.hours_note then [s.hours_note.getD ""] else [])) := by
        simp [Scripts.badgePieces, h]
      obtain ⟨r, hr⟩ := intercalate_cons " · " (s.category.getD "")
        ((if truthy s.status then [s.status.getD ""] else [])
          ++ (if truthy s.hours_note then [s.hours_note.getD ""] else []))
      have hbt : Scripts.badge_text s = s.category.getD "" ++ r := by
        rw [Scripts.badge_text, hpieces]
        exact hr
      have hne : Scripts.badge_text s ≠ "" := by
        rw [hbt]
        exact append_ne_empty_of_left r hcat
      have hpart : escape (if Scripts.badge_text s = "" then "提供專業寵物美容服務"
          else Scripts.badge_text s) ∈ Scripts.pageParts s := by
        simp [Scripts.pageParts]
      rw [if_neg hne, hbt, escape_append] at hpart
      exact sContains_trans (spage_contains_part hpart) (sContains_left _ _)

/-- Witness for the amended C8: a fully-populated root record, a
fully-populated scripts record, and a scripts record with every optional
field absent. -/
theorem claim_c8_witness :
    sContains (Root.render_store_page storeC8w) (escape (Root.displayName storeC8w)) = true ∧
    sContains (Root.render_store_page storeC8w)
      (escape (orFallback storeC8w.rating "尚無評分")) = true ∧
    sContains (Root.render_store_page storeC8w) (escape (storeC8w.review_count.getD "")) = true ∧
    sContains (Root.render_store_page storeC8w) (escape (storeC8w.category.getD "")) = true ∧
    sContains (Root.render_store_page storeC8w) (escape (storeC8w.address.getD "")) = true ∧
    sContains (Root.render_store_page storeC8w) (escape (storeC8w.phone.getD "")) = true ∧
    sContains (Root.render_store_page storeC8w) (escape (storeC8w.status.getD "")) = true ∧
    sContains (Root.render_store_page storeC8w) (escape (storeC8w.hours.getD "")) = true ∧
    sContains (Root.render_store_page storeC8w) (escape storeC8w.map_url) = true ∧
    sContains (Root.render_store_page storeC8w) (escape (storeC8w.website.getD "")) = true ∧
    sContains (Root.render_store_page storeC8w) (escape (storeC8w.image_url.getD "")) = true ∧
    sContains (Root.render_store_page storeC8w) (escape "ft") = true ∧
    sContains (Scripts.render_store storeC8s) (escape storeC8s.name) = true ∧
    sContains (Scripts.render_store storeC8s) (natDecimal 12) = true ∧
    sContains (Scripts.render_store storeC8s) (escape (storeC8s.phone.getD "")) = true ∧
    sContains (Scripts.render_store storeC8s) (escape (storeC8s.website.getD "")) = true ∧
    sContains (Scripts.render_store storeC8s) (escape "sv") = true ∧
    sContains (Scripts.render_store storeC8s) "--" = true ∧
    sContains (Scripts.render_store storeC8s) (escape (storeC8s.category.getD "")) = true ∧
    sContains (Scripts.render_store storeC8e) "未提供" = true ∧
    sContains (Scripts.render_store storeC8e) "歡迎電話洽詢服務內容" = true ∧
    sContains (Scripts.render_store storeC8e)
      (escape (orFallback storeC8e.address "地址未提供")) = true := by
  have h1 := claim_c8_amended.1 storeC8w
  have h2 := claim_c8_amended.2 storeC8s
  have h3 := claim_c8_amended.2 storeC8e
  exact ⟨h1.1, h1.2.1, h1.2.2.1 (by decide), h1.2.2.2.1 (by decide), h1.2.2.2.2.1 (by decide),
    h1.2.2.2.2.2.1 (by decide), h1.2.2.2.2.2.2.1 (by decide), h1.2.2.2.2.2.2.2.1 (by decide),
    h1.2.2.2.2.2.2.2.2.1, h1.2.2.2.2.2.2.2.2.2.1 (by decide),
    h1.2.2.2.2.2.2.2.2.2.2.1 (by decide), h1.2.2.2.2.2.2.2.2.2.2.2 "ft" (by decide),
    h2.1, h2.2.2.1 12 (by decide), h2.2.2.2.2.2.2.1 (by decide),
    h2.2.2.2.2.2.2.2.2.1 (by decide), h2.2.2.2.2.2.2.2.2.2.2.1 "sv" (by decide),
    h2.2.2.2.2.2.2.2.2.2.2.2.2.1 (by decide), h2.2.2.2.2.2.2.2.2.2.2.2.2.2 (by decide),
    h3.2.2.2.2.2.2.2.1 (by decide), h3.2.2.2.2.2.2.2.2.2.2.2.1 (by decide),
    h3.2.2.2.1⟩

/-- **C9** — counterexample: when the root variant parses an empty record
set, the run still succeeds and publishes the index page. -/
theorem claim_c9_counterexample :
    (Root.load_stores [] []).1 = [] ∧
      Root.build_site (Root.load_stores [] []).1 = Except.ok ["index.html"] ∧
      ["index.html"].length ≠ 0 :=
  ⟨rfl, rfl, by decide⟩

/-- **C9** (amended) — the scripts variant aborts with `SystemExit` on an
empty record set (and publishes nothing), proceeding only when at least one
record was produced; the root variant performs no such check and always
writes the index page, even for an empty record set. -/
theorem claim_c9_amended :
    (∀ stores : List Scripts.Store, stores = [] →
      Scripts.generate_pages stores = Except.error "No stores found to generate") ∧
    (∀ stores : List Scripts.Store, stores ≠ [] →
      Scripts.generate_pages stores = Except.ok ("data/stores.json" :: "index.html" ::
        stores.map (fun s => "stores/" ++ s.slug ++ "/index.html"))) ∧
    (∀ stores : List Root.Store,
      Root.build_site stores = Except.ok ("index.html" ::
        stores.map (fun s => s.slug ++ "/index.html"))) := by
  refine ⟨?_, ?_, fun stores => rfl⟩
  · intro stores h
    subst h
    rfl
  · intro stores h
    rw [Scripts.generate_pages, if_neg (by simpa using h)]

/-- Witness for the amended C9 at concrete record sets. -/
theorem claim_c9_witness :
    Scripts.generate_pages [] = Except.error "No stores found to generate" ∧
      Scripts.generate_pages [storeB1]
        = Except.ok ["data/stores.json", "index.html", "stores/store-01/index.html"] := by
  refine ⟨claim_c9_amended.1 [] rfl, ?_⟩
  have h := claim_c9_amended.2.1 [storeB1] (by decide)
  exact h.trans rfl

end PetGrooming
